import Mathlib

/-!
Verification of the geometric core of `polynomial_visualizer.py`.

The source has three pure components, embedded here over the reals:

* `cubic_poly` / `cubic_poly_derivative` (source lines 37-43): the cubic
  elevation polynomial and its derivative, applied pointwise to the sample
  array (modelled as `List ℝ` with `List.map`).
* `build_centerline` (source lines 45-79): per sample, the tangent
  `T = (1, dy, dz) / ‖(1, dy, dz)‖`, the left candidate `L' = U × T` with
  `U = (0,0,1)`, and the normalized left vector with the degenerate
  fallback `np.where(Lnorm < 1e-8, 1.0, Lnorm)`.  The per-sample
  computation is `tangentAt` / `leftCandidate` / `Lnorm` / `leftAt`;
  `build_centerline` maps it over the sample list.
* `make_road_mesh` (source lines 81-96): the two-rail ribbon mesh,
  `centerline ± (width/2) · L` componentwise; numpy's elementwise
  arithmetic on equal-length arrays is modelled with `List.zipWith`, and
  `np.vstack((left, right))` as the pair `(left, right)`.
-/

noncomputable section

open Real

/-- `cubic_poly(s, a, b, c, d)` from source lines 37-39: `a + b*s + c*s**2 + d*s**3`. -/
def cubic_poly (s a b c d : ℝ) : ℝ :=
  a + b * s + c * s ^ 2 + d * s ^ 3

/-- `cubic_poly_derivative(s, b, c, d)` from source lines 41-43: `b + 2.0*c*s + 3.0*d*s**2`. -/
def cubic_poly_derivative (s b c d : ℝ) : ℝ :=
  b + 2.0 * c * s + 3.0 * d * s ^ 2

/-- `cubic_poly` applied to the whole sample array (numpy broadcasting = pointwise map). -/
def cubic_poly_vec (s : List ℝ) (a b c d : ℝ) : List ℝ :=
  s.map fun si => cubic_poly si a b c d

/-- `cubic_poly_derivative` applied to the whole sample array. -/
def cubic_poly_derivative_vec (s : List ℝ) (b c d : ℝ) : List ℝ :=
  s.map fun si => cubic_poly_derivative si b c d

/-- The tangent norm of source line 64: `np.sqrt(Tx*Tx + Ty*Ty + Tz*Tz)` with
`Tx = 1` (line 61), `Ty = dYds`, `Tz = dZds`, at one sample. -/
def Tnorm (dYds dZds : ℝ) : ℝ :=
  Real.sqrt (1.0 * 1.0 + dYds * dYds + dZds * dZds)

/-- The normalized tangent of source line 65: `(Tx, Ty, Tz) / Tnorm`, at one sample. -/
def tangentAt (dYds dZds : ℝ) : ℝ × ℝ × ℝ :=
  (1.0 / Tnorm dYds dZds, dYds / Tnorm dYds dZds, dZds / Tnorm dYds dZds)

/-- The left candidate `L' = U × T`, `U = (0,0,1)`, of source lines 69-72:
`Lx = Uy*Tz - Uz*Ty`, `Ly = Uz*Tx - Ux*Tz`, `Lz = Ux*Ty - Uy*Tx`. -/
def leftCandidate (dYds dZds : ℝ) : ℝ × ℝ × ℝ :=
  (0.0 * (tangentAt dYds dZds).2.2 - 1.0 * (tangentAt dYds dZds).2.1,
   1.0 * (tangentAt dYds dZds).1 - 0.0 * (tangentAt dYds dZds).2.2,
   0.0 * (tangentAt dYds dZds).2.1 - 0.0 * (tangentAt dYds dZds).1)

/-- The left-candidate norm of source line 73: `np.sqrt(Lx*Lx + Ly*Ly + Lz*Lz)`. -/
def Lnorm (dYds dZds : ℝ) : ℝ :=
  Real.sqrt ((leftCandidate dYds dZds).1 * (leftCandidate dYds dZds).1 +
    (leftCandidate dYds dZds).2.1 * (leftCandidate dYds dZds).2.1 +
    (leftCandidate dYds dZds).2.2 * (leftCandidate dYds dZds).2.2)

/-- The normalized left vector of source lines 74-77, with the degenerate
fallback `Lnorm = np.where(Lnorm < small, 1.0, Lnorm)`, `small = 1e-8`. -/
def leftAt (dYds dZds : ℝ) : ℝ × ℝ × ℝ :=
  ((leftCandidate dYds dZds).1 / (if Lnorm dYds dZds < 1e-8 then 1.0 else Lnorm dYds dZds),
   (leftCandidate dYds dZds).2.1 / (if Lnorm dYds dZds < 1e-8 then 1.0 else Lnorm dYds dZds),
   (leftCandidate dYds dZds).2.2 / (if Lnorm dYds dZds < 1e-8 then 1.0 else Lnorm dYds dZds))

/-- `build_centerline(s, a, b, c, d, lateral_func)` from source lines 45-79:
returns `(Xc, Yc, Zc, Lx, Ly, Lz)`.  `Xc = s` (line 50); `Yc, dYds` come from
the optional lateral capability, defaulting to zero (lines 51-55);
`Zc = cubic_poly(s, ...)`, `dZds = cubic_poly_derivative(s, ...)` (lines
57-58); the left vectors come from the per-sample frame computation. -/
def build_centerline (s : List ℝ) (a b c d : ℝ) (lateral_func : Option (ℝ → ℝ × ℝ)) :
    List ℝ × List ℝ × List ℝ × List ℝ × List ℝ × List ℝ :=
  let lat : ℝ → ℝ × ℝ := fun si =>
    match lateral_func with
    | none => (0, 0)
    | some f => f si
  (s,
   s.map fun si => (lat si).1,
   s.map fun si => cubic_poly si a b c d,
   s.map fun si => (leftAt (lat si).2 (cubic_poly_derivative si b c d)).1,
   s.map fun si => (leftAt (lat si).2 (cubic_poly_derivative si b c d)).2.1,
   s.map fun si => (leftAt (lat si).2 (cubic_poly_derivative si b c d)).2.2)

/-- `make_road_mesh(Xc, Yc, Zc, Lx, Ly, Lz, width)` from source lines 81-96:
`half = width / 2.0`; the left rail is `centerline + half * L`, the right
rail `centerline - half * L`; `np.vstack` stacks them as rows 0 and 1 of
each of the three returned 2×N arrays `(X, Y, Z)`. -/
def make_road_mesh (Xc Yc Zc Lx Ly Lz : List ℝ) (width : ℝ) :
    (List ℝ × List ℝ) × (List ℝ × List ℝ) × (List ℝ × List ℝ) :=
  let half := width / 2.0
  ((List.zipWith (fun p l => p + half * l) Xc Lx,
    List.zipWith (fun p l => p - half * l) Xc Lx),
   (List.zipWith (fun p l => p + half * l) Yc Ly,
    List.zipWith (fun p l => p - half * l) Yc Ly),
   (List.zipWith (fun p l => p + half * l) Zc Lz,
    List.zipWith (fun p l => p - half * l) Zc Lz))

/-- Euclidean norm of a 3-vector, used to state the unit-norm invariants. -/
def norm3 (x y z : ℝ) : ℝ :=
  Real.sqrt (x * x + y * y + z * z)

/-- Dot product of two 3-vectors, used to state orthogonality. -/
def dot3 (v w : ℝ × ℝ × ℝ) : ℝ :=
  v.1 * w.1 + v.2.1 * w.2.1 + v.2.2 * w.2.2

/-! ### Helper lemmas -/

theorem getD_map (f : ℝ → ℝ) (l : List ℝ) (i : ℕ) (h : i < l.length) :
    (l.map f).getD i 0 = f (l.getD i 0) := by
  induction l generalizing i with
  | nil => simp at h
  | cons x xs ih =>
    cases i with
    | zero => simp
    | succ j =>
      simp only [List.map_cons, List.getD_cons_succ]
      exact ih j (by simpa using h)

theorem getD_zipWith (f : ℝ → ℝ → ℝ) (as bs : List ℝ) (i : ℕ)
    (ha : i < as.length) (hb : i < bs.length) :
    (List.zipWith f as bs).getD i 0 = f (as.getD i 0) (bs.getD i 0) := by
  induction as generalizing bs i with
  | nil => simp at ha
  | cons x xs ih =>
    cases bs with
    | nil => simp at hb
    | cons y ys =>
      cases i with
      | zero => simp
      | succ j =>
        simp only [List.zipWith_cons_cons, List.getD_cons_succ]
        exact ih ys j (by simpa using ha) (by simpa using hb)

theorem Tnorm_sq (dy dz : ℝ) : Tnorm dy dz * Tnorm dy dz = 1.0 * 1.0 + dy * dy + dz * dz := by
  exact Real.mul_self_sqrt (by nlinarith [mul_self_nonneg dy, mul_self_nonneg dz])

theorem one_le_Tnorm (dy dz : ℝ) : 1 ≤ Tnorm dy dz := by
  rw [show (1 : ℝ) = Real.sqrt 1 from (Real.sqrt_one).symm]
  apply Real.sqrt_le_sqrt
  nlinarith [mul_self_nonneg dy, mul_self_nonneg dz]

theorem Tnorm_pos (dy dz : ℝ) : 0 < Tnorm dy dz :=
  lt_of_lt_of_le one_pos (one_le_Tnorm dy dz)

/-! ### Claims -/

/-- C1: for every sample value `s_i` and coefficients `(a,b,c,d)`, the curve
evaluator returns elevation `z(s_i) = a + b*s_i + c*s_i^2 + d*s_i^3` and
derivative `dz/ds(s_i) = b + 2*c*s_i + 3*d*s_i^2`, as two sequences of the
same length as the input sample sequence. -/
theorem curve_evaluator_spec (s : List ℝ) (a b c d : ℝ) :
    (cubic_poly_vec s a b c d).length = s.length ∧
    (cubic_poly_derivative_vec s b c d).length = s.length ∧
    ∀ i, i < s.length →
      (cubic_poly_vec s a b c d).getD i 0 =
        a + b * s.getD i 0 + c * (s.getD i 0) ^ 2 + d * (s.getD i 0) ^ 3 ∧
      (cubic_poly_derivative_vec s b c d).getD i 0 =
        b + 2 * c * s.getD i 0 + 3 * d * (s.getD i 0) ^ 2 := by
  refine ⟨by simp [cubic_poly_vec], by simp [cubic_poly_derivative_vec], fun i hi => ?_⟩
  constructor
  · rw [cubic_poly_vec, getD_map _ _ _ hi, cubic_poly]
  · rw [cubic_poly_derivative_vec, getD_map _ _ _ hi, cubic_poly_derivative]
    norm_num

/-- Witness for C1 at `s = [2]`, `(a,b,c,d) = (1,1,1,1)`, index 0. -/
theorem curve_evaluator_spec_witness :
    (cubic_poly_vec [(2 : ℝ)] 1 1 1 1).getD 0 0 =
      1 + 1 * List.getD [(2 : ℝ)] 0 0 + 1 * (List.getD [(2 : ℝ)] 0 0) ^ 2 +
        1 * (List.getD [(2 : ℝ)] 0 0) ^ 3 ∧
    (cubic_poly_derivative_vec [(2 : ℝ)] 1 1 1).getD 0 0 =
      1 + 2 * 1 * List.getD [(2 : ℝ)] 0 0 + 3 * 1 * (List.getD [(2 : ℝ)] 0 0) ^ 2 :=
  (curve_evaluator_spec [(2 : ℝ)] 1 1 1 1).2.2 0 (by simp)

/-- C10: the tangent normalization never divides by zero: since the
x-component is fixed at 1 before normalization, `‖(1, dy, dz)‖ ≥ 1` for all
real derivative inputs, so the norm is nonzero and the division is total. -/
theorem tangent_norm_ge_one (dy dz : ℝ) :
    1 ≤ Tnorm dy dz ∧ Tnorm dy dz ≠ 0 :=
  ⟨one_le_Tnorm dy dz, ne_of_gt (Tnorm_pos dy dz)⟩

/-- C4: for every sample, the tangent `T = (1, dy, dz) / ‖(1, dy, dz)‖`
returned by the frame builder has unit norm. -/
theorem tangent_unit_norm (dy dz : ℝ) :
    norm3 (tangentAt dy dz).1 (tangentAt dy dz).2.1 (tangentAt dy dz).2.2 = 1 := by
  have hpos := Tnorm_pos dy dz
  have hsq := Tnorm_sq dy dz
  rw [norm3, tangentAt]
  have h : 1.0 / Tnorm dy dz * (1.0 / Tnorm dy dz) +
      dy / Tnorm dy dz * (dy / Tnorm dy dz) +
      dz / Tnorm dy dz * (dz / Tnorm dy dz) = 1 := by
    field_simp
    nlinarith [hsq]
  rw [h, Real.sqrt_one]

/-- C3: for every sample where the left-candidate norm falls below 1e-8,
the division uses a norm of exactly 1.0, so the returned left vector equals
the un-normalized near-zero candidate `L' = U × T`; the function is total. -/
theorem degenerate_frame_policy (dy dz : ℝ) (h : Lnorm dy dz < 1e-8) :
    leftAt dy dz = leftCandidate dy dz := by
  rw [leftAt, if_pos h]
  norm_num

theorem Lnorm_of_large_dz : Lnorm 0 1e9 < 1e-8 := by
  have hn := Tnorm_pos 0 1e9
  have hc : leftCandidate 0 1e9 = (0, 1.0 / Tnorm 0 1e9, 0) := by
    rw [leftCandidate, tangentAt]
    norm_num
  have hb : (1e8 : ℝ) < Tnorm 0 1e9 := by
    rw [Tnorm, show ((1e8 : ℝ) = Real.sqrt (1e8 ^ 2)) from
      (Real.sqrt_sq (by norm_num)).symm]
    apply Real.sqrt_lt_sqrt (by norm_num)
    norm_num
  rw [Lnorm, hc]
  show Real.sqrt ((0 : ℝ) * 0 + 1.0 / Tnorm 0 1e9 * (1.0 / Tnorm 0 1e9) + 0 * 0) < 1e-8
  rw [Real.sqrt_lt' (by norm_num : (0 : ℝ) < 1e-8)]
  have hnn : Tnorm 0 1e9 * Tnorm 0 1e9 = 1 + 1e18 := by
    rw [Tnorm_sq 0 1e9]
    norm_num
  have h1 : 1.0 / Tnorm 0 1e9 * (1.0 / Tnorm 0 1e9) = 1 / (1 + 1e18) := by
    rw [div_mul_div_comm, hnn]
    norm_num
  rw [h1]
  norm_num

/-- Witness for C3 at `(dy, dz) = (0, 1e9)`: the threshold is crossed and the
left vector is returned un-normalized. -/
theorem degenerate_frame_policy_witness :
    Lnorm 0 1e9 < 1e-8 ∧ leftAt 0 1e9 = leftCandidate 0 1e9 :=
  ⟨Lnorm_of_large_dz, degenerate_frame_policy 0 1e9 Lnorm_of_large_dz⟩

/-- C5: for every sample where the frame is non-degenerate (left-candidate
norm at or above the 1e-8 threshold), the returned left vector has unit norm
and is orthogonal to the tangent. -/
theorem left_unit_norm_orthogonal (dy dz : ℝ) (h : ¬ Lnorm dy dz < 1e-8) :
    norm3 (leftAt dy dz).1 (leftAt dy dz).2.1 (leftAt dy dz).2.2 = 1 ∧
    dot3 (leftAt dy dz) (tangentAt dy dz) = 0 := by
  have hn : 0 < Lnorm dy dz := lt_of_lt_of_le (by norm_num) (not_lt.mp h)
  have hsq : Lnorm dy dz * Lnorm dy dz =
      (leftCandidate dy dz).1 * (leftCandidate dy dz).1 +
      (leftCandidate dy dz).2.1 * (leftCandidate dy dz).2.1 +
      (leftCandidate dy dz).2.2 * (leftCandidate dy dz).2.2 := by
    rw [Lnorm]
    have h1 := mul_self_nonneg (leftCandidate dy dz).1
    have h2 := mul_self_nonneg (leftCandidate dy dz).2.1
    have h3 := mul_self_nonneg (leftCandidate dy dz).2.2
    exact Real.mul_self_sqrt (by nlinarith [h1, h2, h3])
  constructor
  · rw [leftAt, if_neg h, norm3]
    have key : (leftCandidate dy dz).1 / Lnorm dy dz * ((leftCandidate dy dz).1 / Lnorm dy dz) +
        (leftCandidate dy dz).2.1 / Lnorm dy dz * ((leftCandidate dy dz).2.1 / Lnorm dy dz) +
        (leftCandidate dy dz).2.2 / Lnorm dy dz * ((leftCandidate dy dz).2.2 / Lnorm dy dz) = 1 := by
      field_simp
      nlinarith [hsq]
    rw [key, Real.sqrt_one]
  · rw [dot3, leftAt, if_neg h, leftCandidate]
    field_simp
    ring

/-- Witness for C5 at `(dy, dz) = (0, 0)`: the frame is non-degenerate, and
the left vector is unit and orthogonal to the tangent. -/
theorem left_unit_norm_orthogonal_witness :
    ¬ Lnorm 0 0 < 1e-8 ∧
    (norm3 (leftAt 0 0).1 (leftAt 0 0).2.1 (leftAt 0 0).2.2 = 1 ∧
     dot3 (leftAt 0 0) (tangentAt 0 0) = 0) := by
  have h1 : Lnorm 0 0 = 1 := by
    have ht : Tnorm 0 0 = 1 := by
      rw [Tnorm]
      norm_num
    rw [Lnorm, leftCandidate, tangentAt, ht]
    norm_num
  have h : ¬ Lnorm 0 0 < 1e-8 := by rw [h1]; norm_num
  exact ⟨h, left_unit_norm_orthogonal 0 0 h⟩

theorem tangentAt_zero : tangentAt 0 0 = (1, 0, 0) := by
  have ht : Tnorm 0 0 = 1 := by
    rw [Tnorm]
    norm_num
  rw [tangentAt, ht]
  norm_num

theorem leftAt_zero : leftAt 0 0 = (0, 1, 0) := by
  have ht : Tnorm 0 0 = 1 := by
    rw [Tnorm]
    norm_num
  have hc : leftCandidate 0 0 = (0, 1, 0) := by
    rw [leftCandidate, tangentAt, ht]
    norm_num
  have hl : Lnorm 0 0 = 1 := by
    rw [Lnorm, hc]
    norm_num
  rw [leftAt, hl, hc]
  norm_num

theorem derivative_at_zero_coeffs (si : ℝ) : cubic_poly_derivative si 0 0 0 = 0 := by
  rw [cubic_poly_derivative]
  ring

/-- C8: flat-road scenario: with `a = b = c = d = 0` and no lateral function,
every sample has elevation 0, tangent `(1,0,0)` and left vector `(0,1,0)`;
`build_centerline` returns the sample list unchanged as `Xc`, zero `Yc` and
`Zc`, and the constant left vector `(0,1,0)`. -/
theorem flat_road_scenario (s : List ℝ) :
    build_centerline s 0 0 0 0 none =
      (s, s.map fun _ => (0 : ℝ), s.map fun _ => (0 : ℝ), s.map fun _ => (0 : ℝ),
       s.map fun _ => (1 : ℝ), s.map fun _ => (0 : ℝ)) ∧
    ∀ si : ℝ, cubic_poly si 0 0 0 0 = 0 ∧
      tangentAt 0 (cubic_poly_derivative si 0 0 0) = (1, 0, 0) ∧
      leftAt 0 (cubic_poly_derivative si 0 0 0) = (0, 1, 0) := by
  constructor
  · rw [build_centerline]
    simp [cubic_poly, derivative_at_zero_coeffs, leftAt_zero]
  · intro si
    rw [derivative_at_zero_coeffs]
    refine ⟨?_, tangentAt_zero, leftAt_zero⟩
    rw [cubic_poly]
    ring

/-- C2: the source `make_road_mesh` performs no width validation.  Evaluated
at `width = 0` it returns a mesh whose two rails both equal the centerline,
and at `width = -1` it returns a mesh with the rails swapped across the
centerline — in both cases a mesh is produced and no error is reported. -/
theorem make_road_mesh_no_width_check :
    make_road_mesh [1] [2] [3] [0] [1] [0] 0 = (([1], [1]), ([2], [2]), ([3], [3])) ∧
    make_road_mesh [1] [2] [3] [0] [1] [0] (-1) =
      (([1], [1]), ([3 / 2], [5 / 2]), ([3], [3])) := by
  rw [make_road_mesh, make_road_mesh]
  norm_num

/-- C6: mesh extrusion computes `half = width/2` and returns a two-row,
N-column grid: row 0 (left rail) is `centerline + half * L` and row 1
(right rail) is `centerline - half * L`, componentwise at every column. -/
theorem mesh_rails_spec (Xc Yc Zc Lx Ly Lz : List ℝ) (width : ℝ) (N : ℕ)
    (hXc : Xc.length = N) (hYc : Yc.length = N) (hZc : Zc.length = N)
    (hLx : Lx.length = N) (hLy : Ly.length = N) (hLz : Lz.length = N) :
    ((make_road_mesh Xc Yc Zc Lx Ly Lz width).1.1.length = N ∧
     (make_road_mesh Xc Yc Zc Lx Ly Lz width).1.2.length = N ∧
     (make_road_mesh Xc Yc Zc Lx Ly Lz width).2.1.1.length = N ∧
     (make_road_mesh Xc Yc Zc Lx Ly Lz width).2.1.2.length = N ∧
     (make_road_mesh Xc Yc Zc Lx Ly Lz width).2.2.1.length = N ∧
     (make_road_mesh Xc Yc Zc Lx Ly Lz width).2.2.2.length = N) ∧
    ∀ i, i < N →
      (make_road_mesh Xc Yc Zc Lx Ly Lz width).1.1.getD i 0 =
        Xc.getD i 0 + width / 2 * Lx.getD i 0 ∧
      (make_road_mesh Xc Yc Zc Lx Ly Lz width).2.1.1.getD i 0 =
        Yc.getD i 0 + width / 2 * Ly.getD i 0 ∧
      (make_road_mesh Xc Yc Zc Lx Ly Lz width).2.2.1.getD i 0 =
        Zc.getD i 0 + width / 2 * Lz.getD i 0 ∧
      (make_road_mesh Xc Yc Zc Lx Ly Lz width).1.2.getD i 0 =
        Xc.getD i 0 - width / 2 * Lx.getD i 0 ∧
      (make_road_mesh Xc Yc Zc Lx Ly Lz width).2.1.2.getD i 0 =
        Yc.getD i 0 - width / 2 * Ly.getD i 0 ∧
      (make_road_mesh Xc Yc Zc Lx Ly Lz width).2.2.2.getD i 0 =
        Zc.getD i 0 - width / 2 * Lz.getD i 0 := by
  rw [make_road_mesh]
  refine ⟨⟨?_, ?_, ?_, ?_, ?_, ?_⟩, fun i hi => ?_⟩
  · simp [List.length_zipWith, hXc, hLx]
  · simp [List.length_zipWith, hXc, hLx]
  · simp [List.length_zipWith, hYc, hLy]
  · simp [List.length_zipWith, hYc, hLy]
  · simp [List.length_zipWith, hZc, hLz]
  · simp [List.length_zipWith, hZc, hLz]
  refine ⟨?_, ?_, ?_, ?_, ?_, ?_⟩
  · rw [getD_zipWith _ Xc Lx i (by omega) (by omega)]
    norm_num
  · rw [getD_zipWith _ Yc Ly i (by omega) (by omega)]
    norm_num
  · rw [getD_zipWith _ Zc Lz i (by omega) (by omega)]
    norm_num
  · rw [getD_zipWith _ Xc Lx i (by omega) (by omega)]
    norm_num
  · rw [getD_zipWith _ Yc Ly i (by omega) (by omega)]
    norm_num
  · rw [getD_zipWith _ Zc Lz i (by omega) (by omega)]
    norm_num

/-- Witness for C6 at centerline `[(1,2,3)]`, left vector `[(0,1,0)]`,
`width = 6`, column 0. -/
theorem mesh_rails_spec_witness :
    (make_road_mesh [1] [2] [3] [0] [1] [0] 6).1.1.getD 0 0 =
      List.getD [(1 : ℝ)] 0 0 + 6 / 2 * List.getD [(0 : ℝ)] 0 0 ∧
    (make_road_mesh [1] [2] [3] [0] [1] [0] 6).2.1.1.getD 0 0 =
      List.getD [(2 : ℝ)] 0 0 + 6 / 2 * List.getD [(1 : ℝ)] 0 0 ∧
    (make_road_mesh [1] [2] [3] [0] [1] [0] 6).2.2.1.getD 0 0 =
      List.getD [(3 : ℝ)] 0 0 + 6 / 2 * List.getD [(0 : ℝ)] 0 0 ∧
    (make_road_mesh [1] [2] [3] [0] [1] [0] 6).1.2.getD 0 0 =
      List.getD [(1 : ℝ)] 0 0 - 6 / 2 * List.getD [(0 : ℝ)] 0 0 ∧
    (make_road_mesh [1] [2] [3] [0] [1] [0] 6).2.1.2.getD 0 0 =
      List.getD [(2 : ℝ)] 0 0 - 6 / 2 * List.getD [(1 : ℝ)] 0 0 ∧
    (make_road_mesh [1] [2] [3] [0] [1] [0] 6).2.2.2.getD 0 0 =
      List.getD [(3 : ℝ)] 0 0 - 6 / 2 * List.getD [(0 : ℝ)] 0 0 :=
  (mesh_rails_spec [1] [2] [3] [0] [1] [0] 6 1 rfl rfl rfl rfl rfl rfl).2 0 (by norm_num)

/-- C9: for every sample, every width, and every left vector (including the
degenerate near-zero case), the componentwise midpoint of the two rail
points produced by `make_road_mesh` equals exactly the centerline point. -/
theorem mesh_midpoint_is_centerline (Xc Yc Zc Lx Ly Lz : List ℝ) (width : ℝ) (N : ℕ)
    (hXc : Xc.length = N) (hYc : Yc.length = N) (hZc : Zc.length = N)
    (hLx : Lx.length = N) (hLy : Ly.length = N) (hLz : Lz.length = N) :
    ∀ i, i < N →
      ((make_road_mesh Xc Yc Zc Lx Ly Lz width).1.1.getD i 0 +
       (make_road_mesh Xc Yc Zc Lx Ly Lz width).1.2.getD i 0) / 2 = Xc.getD i 0 ∧
      ((make_road_mesh Xc Yc Zc Lx Ly Lz width).2.1.1.getD i 0 +
       (make_road_mesh Xc Yc Zc Lx Ly Lz width).2.1.2.getD i 0) / 2 = Yc.getD i 0 ∧
      ((make_road_mesh Xc Yc Zc Lx Ly Lz width).2.2.1.getD i 0 +
       (make_road_mesh Xc Yc Zc Lx Ly Lz width).2.2.2.getD i 0) / 2 = Zc.getD i 0 := by
  intro i hi
  rw [make_road_mesh]
  refine ⟨?_, ?_, ?_⟩
  · rw [getD_zipWith _ Xc Lx i (by omega) (by omega),
      getD_zipWith _ Xc Lx i (by omega) (by omega)]
    ring
  · rw [getD_zipWith _ Yc Ly i (by omega) (by omega),
      getD_zipWith _ Yc Ly i (by omega) (by omega)]
    ring
  · rw [getD_zipWith _ Zc Lz i (by omega) (by omega),
      getD_zipWith _ Zc Lz i (by omega) (by omega)]
    ring

/-- Witness for C9 at centerline `[(1,2,3)]`, left vector `[(7,8,9)]`
(not unit — any left vector qualifies), `width = 5`, column 0. -/
theorem mesh_midpoint_is_centerline_witness :
    ((make_road_mesh [1] [2] [3] [7] [8] [9] 5).1.1.getD 0 0 +
     (make_road_mesh [1] [2] [3] [7] [8] [9] 5).1.2.getD 0 0) / 2 = List.getD [(1 : ℝ)] 0 0 ∧
    ((make_road_mesh [1] [2] [3] [7] [8] [9] 5).2.1.1.getD 0 0 +
     (make_road_mesh [1] [2] [3] [7] [8] [9] 5).2.1.2.getD 0 0) / 2 = List.getD [(2 : ℝ)] 0 0 ∧
    ((make_road_mesh [1] [2] [3] [7] [8] [9] 5).2.2.1.getD 0 0 +
     (make_road_mesh [1] [2] [3] [7] [8] [9] 5).2.2.2.getD 0 0) / 2 = List.getD [(3 : ℝ)] 0 0 :=
  mesh_midpoint_is_centerline [1] [2] [3] [7] [8] [9] 5 1 rfl rfl rfl rfl rfl rfl 0 (by norm_num)

/-- C7: at every column whose left vector has unit norm, the Euclidean
distance between the left-rail point and the right-rail point of the mesh
equals exactly the width (width taken nonnegative, as the spec fixes
width to be a positive real). -/
theorem rail_separation_eq_width (Xc Yc Zc Lx Ly Lz : List ℝ) (width : ℝ) (N : ℕ)
    (hXc : Xc.length = N) (hYc : Yc.length = N) (hZc : Zc.length = N)
    (hLx : Lx.length = N) (hLy : Ly.length = N) (hLz : Lz.length = N)
    (i : ℕ) (hi : i < N)
    (hunit : Lx.getD i 0 * Lx.getD i 0 + Ly.getD i 0 * Ly.getD i 0 +
      Lz.getD i 0 * Lz.getD i 0 = 1)
    (hw : 0 ≤ width) :
    norm3 ((make_road_mesh Xc Yc Zc Lx Ly Lz width).1.1.getD i 0 -
           (make_road_mesh Xc Yc Zc Lx Ly Lz width).1.2.getD i 0)
          ((make_road_mesh Xc Yc Zc Lx Ly Lz width).2.1.1.getD i 0 -
           (make_road_mesh Xc Yc Zc Lx Ly Lz width).2.1.2.getD i 0)
          ((make_road_mesh Xc Yc Zc Lx Ly Lz width).2.2.1.getD i 0 -
           (make_road_mesh Xc Yc Zc Lx Ly Lz width).2.2.2.getD i 0) = width := by
  rw [make_road_mesh]
  rw [getD_zipWith _ Xc Lx i (by omega) (by omega),
    getD_zipWith _ Xc Lx i (by omega) (by omega),
    getD_zipWith _ Yc Ly i (by omega) (by omega),
    getD_zipWith _ Yc Ly i (by omega) (by omega),
    getD_zipWith _ Zc Lz i (by omega) (by omega),
    getD_zipWith _ Zc Lz i (by omega) (by omega)]
  rw [norm3]
  have key : (Xc.getD i 0 + width / 2.0 * Lx.getD i 0 -
        (Xc.getD i 0 - width / 2.0 * Lx.getD i 0)) *
      (Xc.getD i 0 + width / 2.0 * Lx.getD i 0 -
        (Xc.getD i 0 - width / 2.0 * Lx.getD i 0)) +
      (Yc.getD i 0 + width / 2.0 * Ly.getD i 0 -
        (Yc.getD i 0 - width / 2.0 * Ly.getD i 0)) *
      (Yc.getD i 0 + width / 2.0 * Ly.getD i 0 -
        (Yc.getD i 0 - width / 2.0 * Ly.getD i 0)) +
      (Zc.getD i 0 + width / 2.0 * Lz.getD i 0 -
        (Zc.getD i 0 - width / 2.0 * Lz.getD i 0)) *
      (Zc.getD i 0 + width / 2.0 * Lz.getD i 0 -
        (Zc.getD i 0 - width / 2.0 * Lz.getD i 0)) = width * width := by
    have expand : ∀ u v h : ℝ, u + h * v - (u - h * v) = 2 * h * v := by
      intro u v h
      ring
    nlinarith [hunit]
  rw [key, Real.sqrt_mul_self hw]

/-- Witness for C7 at centerline `[(0,0,0)]`, unit left vector `[(0,1,0)]`,
`width = 6`, column 0: the rails are 6 apart. -/
theorem rail_separation_eq_width_witness :
    norm3 ((make_road_mesh [0] [0] [0] [0] [1] [0] 6).1.1.getD 0 0 -
           (make_road_mesh [0] [0] [0] [0] [1] [0] 6).1.2.getD 0 0)
          ((make_road_mesh [0] [0] [0] [0] [1] [0] 6).2.1.1.getD 0 0 -
           (make_road_mesh [0] [0] [0] [0] [1] [0] 6).2.1.2.getD 0 0)
          ((make_road_mesh [0] [0] [0] [0] [1] [0] 6).2.2.1.getD 0 0 -
           (make_road_mesh [0] [0] [0] [0] [1] [0] 6).2.2.2.getD 0 0) = 6 :=
  rail_separation_eq_width [0] [0] [0] [0] [1] [0] 6 1 rfl rfl rfl rfl rfl rfl 0
    (by norm_num) (by norm_num) (by norm_num)
